import Mathlib

/-!
Verification development for the separable image-resampling core of the
pic-scale-safe crate.

Modelling conventions, applied throughout:

* `f32` values are modelled by exact rationals (`ℚ`).  Every concrete input
  appearing in a theorem below only exercises `f32` operations that are exact
  (dyadic constants, small integers, multiplication by exact powers of two,
  products with `0`), so on those inputs the rational model computes the very
  value the `f32` code computes.  Universally quantified statements are about
  this real-arithmetic idealization of the floating code.
* `usize` is modelled by `ℕ` together with the 64-bit bound `usize_bound`;
  the products the source checks with `overflowing_mul` are modelled with the
  wrapped product `usize_mul`, and a product is "overflowed" exactly when the
  mathematical product reaches `usize_bound`.
* Accumulators (`i32`/`i64`) are modelled by `ℤ`.  The saturating narrow
  clamps its argument, so the range facts proved below do not depend on the
  width of the machine accumulator.
* Rust panics (`assert!`, `assert_ne!`) are modelled by the dedicated result
  constructor `ResizeResult.panicked`; `Err(String)` is modelled by
  `ResizeResult.error` (the message text plays no role in any claim and is
  elided); `Ok(v)` by `ResizeResult.ok v`.
* Several modules of the crate are declared in `lib.rs` but their sources
  are not available: `definitions`, `filter_weights`, `image_size`, `mlaf`,
  `trc`, and parts of `math` (for example `math/sinc.rs`).  Definitions taken
  from those are marked "Modelled from the spec" and follow the
  specification's wording (`PRECISION = 15`, rounding bias `2^(P-1)`,
  `q = round(w * 2^P)`, the `FilterPlan` layout of spec section 3).
  `math/bessel_order_one.rs` is present, and `j1` and `jinc` below are ported
  from it.
-/

/-- Number of values of the 64-bit machine word `usize`. -/
def usize_bound : ℕ := 2 ^ 64

/-- Wrapping `usize` multiplication, the value part of `overflowing_mul`. -/
def usize_mul (a b : ℕ) : ℕ := (a * b) % usize_bound

/-- Rust `f32::round`: round to nearest, ties away from zero, modelled on `ℚ`.
(The source's `cpu_round` fallback for targets without a rounding instruction
adds an epsilon first; the claims below never evaluate a tie on that path.) -/
def qround (x : ℚ) : ℤ := if 0 ≤ x then ⌊x + 1 / 2⌋ else ⌈x - 1 / 2⌉

/-- Rust saturating cast from a (finite) float to `usize`: truncation toward
zero with negative values clamped to `0`.  For every rational this agrees with
`Int.toNat` of the floor. -/
def f32_to_usize (x : ℚ) : ℕ := (⌊x⌋).toNat

/-- Modelled from the spec: constant `PRECISION` of the missing
`definitions.rs`; spec section 4.4 and the glossary fix `P = 15`. -/
def PRECISION : ℕ := 15

/-- Modelled from the spec: constant `ROUNDING_CONST` of the missing
`definitions.rs`; spec section 4.3 fixes the fixed-point accumulator bias to
`2^(P-1)`. -/
def ROUNDING_CONST : ℤ := 2 ^ (PRECISION - 1)

/-- Arithmetic right shift of a (signed) integer, as performed by Rust `>>`
on `i32`/`i64`: floor division by the corresponding power of two. -/
def asr (x : ℤ) (n : ℕ) : ℤ := Int.fdiv x (2 ^ n)

/-- Modelled from the spec: `ImageSize` of the missing `image_size.rs`
(spec section 3: a `(width, height)` pair). -/
structure ImageSize where
  width : ℕ
  height : ℕ
deriving DecidableEq, Repr

/-- Modelled from the spec: `FilterBounds` of the missing `filter_weights.rs`
(spec section 3: a `(start, size)` pair). -/
structure FilterBounds where
  start : ℕ
  size : ℕ
deriving DecidableEq, Repr

/-- Modelled from the spec: `FilterWeights<T>` of the missing
`filter_weights.rs`.  Field order follows the constructor call
`FilterWeights::new(weights, kernel_size, kernel_size, out_size,
filter_radius, bounds)` in `compute_weights.rs` and the `FilterPlan` layout of
spec section 3 (row-major weights with uniform stride `aligned_size`). -/
structure FilterWeights (α : Type) where
  weights : List α
  kernel_size : ℕ
  aligned_size : ℕ
  out_size : ℕ
  filter_radius : ℚ
  bounds : List FilterBounds
deriving DecidableEq, Repr

/-- Row `i` of a weight plan: the `aligned_size`-wide chunk the convolution
engines read with `chunks_exact(aligned_size)`. -/
def plan_row {α : Type} (fw : FilterWeights α) (i : ℕ) : List α :=
  (fw.weights.drop (i * fw.aligned_size)).take fw.aligned_size

/-- `ResamplingWindow` from `sampler.rs` (field types `f32` modelled by `ℚ`). -/
structure ResamplingWindow where
  window : ℚ → ℚ
  window_size : ℚ
  blur : ℚ
  taper : ℚ

/-- `ResamplingFilter` from `sampler.rs`. -/
structure ResamplingFilter where
  kernel : ℚ → ℚ
  window : Option ResamplingWindow
  min_kernel_size : ℚ
  is_resizable_kernel : Bool
  is_area_filter : Bool

/-- The closed kernel enumeration `ResamplingFunction` from `sampler.rs`,
constructors in source declaration order. -/
inductive ResamplingFunction where
  | Bilinear
  | Nearest
  | Cubic
  | MitchellNetravalli
  | CatmullRom
  | Hermite
  | BSpline
  | Hann
  | Bicubic
  | Hamming
  | Hanning
  | Blackman
  | Welch
  | Quadric
  | Gaussian
  | Sphinx
  | Bartlett
  | Robidoux
  | RobidouxSharp
  | Spline16
  | Spline36
  | Spline64
  | Kaiser
  | BartlettHann
  | Box
  | Bohman
  | Lanczos2
  | Lanczos3
  | Lanczos4
  | Lanczos2Jinc
  | Lanczos3Jinc
  | Lanczos4Jinc
  | Ginseng
  | HaasnSoft
  | Lagrange2
  | Lagrange3
  | Lanczos6
  | Lanczos6Jinc
  | Area
deriving DecidableEq, Repr

/-- `impl From<u32> for ResamplingFunction` from `sampler.rs`: the stable
integer-to-kernel mapping, unknown values falling back to `Bilinear`. -/
def resampling_from_u32 : ℕ → ResamplingFunction
  | 0 => ResamplingFunction.Bilinear
  | 1 => ResamplingFunction.Nearest
  | 2 => ResamplingFunction.Cubic
  | 3 => ResamplingFunction.MitchellNetravalli
  | 4 => ResamplingFunction.CatmullRom
  | 5 => ResamplingFunction.Hermite
  | 6 => ResamplingFunction.BSpline
  | 7 => ResamplingFunction.Hann
  | 8 => ResamplingFunction.Bicubic
  | 9 => ResamplingFunction.Hamming
  | 10 => ResamplingFunction.Hanning
  | 11 => ResamplingFunction.Blackman
  | 12 => ResamplingFunction.Welch
  | 13 => ResamplingFunction.Quadric
  | 14 => ResamplingFunction.Gaussian
  | 15 => ResamplingFunction.Sphinx
  | 16 => ResamplingFunction.Bartlett
  | 17 => ResamplingFunction.Robidoux
  | 18 => ResamplingFunction.RobidouxSharp
  | 19 => ResamplingFunction.Spline16
  | 20 => ResamplingFunction.Spline36
  | 21 => ResamplingFunction.Spline64
  | 22 => ResamplingFunction.Kaiser
  | 23 => ResamplingFunction.BartlettHann
  | 24 => ResamplingFunction.Box
  | 25 => ResamplingFunction.Bohman
  | 26 => ResamplingFunction.Lanczos2
  | 27 => ResamplingFunction.Lanczos3
  | 28 => ResamplingFunction.Lanczos4
  | 29 => ResamplingFunction.Lanczos2Jinc
  | 30 => ResamplingFunction.Lanczos3Jinc
  | 31 => ResamplingFunction.Lanczos4Jinc
  | 32 => ResamplingFunction.Ginseng
  | 33 => ResamplingFunction.HaasnSoft
  | 34 => ResamplingFunction.Lagrange2
  | 35 => ResamplingFunction.Lagrange3
  | 36 => ResamplingFunction.Lanczos6
  | 37 => ResamplingFunction.Lanczos6Jinc
  | 38 => ResamplingFunction.Area
  | _ => ResamplingFunction.Bilinear

/-- `box_weight` from `sampler.rs`: the Box (and Area) kernel, constantly `1`
independent of its argument. -/
def box_weight (_ : ℚ) : ℚ := 1

/-- Modelled from the spec: `sinc` of the missing `math/sinc.rs`.
`sin(πx)/(πx)` is transcendental and has no exact rational form; its value is
`1` at `x = 0` and that is the only argument at which any theorem in this
file evaluates it (and there it is multiplied by the window value
`jinc 0 = 0`, so even this value is immaterial).  Nonzero arguments use a
total placeholder that no proof inspects. -/
def sinc (x : ℚ) : ℚ := if x = 0 then 1 else x

/-- Coefficient `R00` of the R0/S0 approximation on `[0, 2]` from
`math/bessel_order_one.rs` line 80, its decimal literal read as an exact
rational. -/
def R00 : ℚ := -6.25000000000000000000e-02

/-- Coefficient `R01` from `math/bessel_order_one.rs` line 81. -/
def R01 : ℚ := 1.40705666955189706048e-03

/-- Coefficient `R02` from `math/bessel_order_one.rs` line 82. -/
def R02 : ℚ := -1.59955631084035597520e-05

/-- Coefficient `R03` from `math/bessel_order_one.rs` line 83. -/
def R03 : ℚ := 4.96727999609584448412e-08

/-- Coefficient `S01` from `math/bessel_order_one.rs` line 84. -/
def S01 : ℚ := 1.91537599538363460805e-02

/-- Coefficient `S02` from `math/bessel_order_one.rs` line 85. -/
def S02 : ℚ := 1.85946785588630915560e-04

/-- Coefficient `S03` from `math/bessel_order_one.rs` line 86. -/
def S03 : ℚ := 1.17718464042623683263e-06

/-- Coefficient `S04` from `math/bessel_order_one.rs` line 87. -/
def S04 : ℚ := 5.04636257076217042715e-09

/-- Coefficient `S05` from `math/bessel_order_one.rs` line 88. -/
def S05 : ℚ := 1.23542274426137913908e-11

/-- Placeholder for the `|x| >= 2` asymptotic branch of `j1`
(`math/bessel_order_one.rs` lines 37-77 and 104: `common`, which forms
`INVSQRTPI * cc / x.sqrt()` from `sin`, `cos` and the `pone`/`qone` rational
approximations).  `sin`, `cos` and `sqrt` have no exact rational form; no
theorem in this file evaluates `j1` (hence `jinc`) at any argument with
`|x| >= 2` — the only `jinc` evaluation below is at `0`, which returns before
`j1` is called — so this branch is represented by a total placeholder that no
proof inspects. -/
def j1_asymptotic (x : ℚ) : ℚ := x

/-- `j1` from `math/bessel_order_one.rs` lines 90-117.  The branch conditions
compare the high word of the `f64` representation; for finite arguments they
are exactly the magnitude tests `|x| >= 2` (high word `0x40000000`) and
`|x| >= 2^-127` (high word `0x38000000`, per the source comment), and the
leading `ix >= 0x7ff00000` test (infinity/NaN) is unreachable over the
rationals.  The middle branch is the rational R0/S0 polynomial approximation,
ported exactly; the large branch is the transcendental `common`, see
`j1_asymptotic`. -/
def j1 (x : ℚ) : ℚ :=
  if 2 ≤ |x| then j1_asymptotic x
  else if 1 / 2 ^ 127 ≤ |x| then
    let z := x * x
    let r := z * (R00 + z * (R01 + z * (R02 + z * R03)))
    let s := 1 + z * (S01 + z * (S02 + z * (S03 + z * (S04 + z * S05))))
    (1 / 2 + r / s) * x
  else
    (1 / 2 + x) * x

/-- `jinc_f32` (and `jinc_f64`) from `math/bessel_order_one.rs` lines
334-347: `0` at `x = 0`, otherwise `j1(x) / x`.  The `f32` variant routes
through `f64` (`(j1(x as f64) / x as f64) as f32`); in the exact-rational
model the widening and narrowing casts are the identity, so both variants
coincide.  The zero case agrees with the spec's convention (`jinc(0)` defined
as `0`, sections 4.7 and 7). -/
def jinc (x : ℚ) : ℚ := if x = 0 then 0 else j1 x / x

/-- Registry entry for `ResamplingFunction::Box` from `sampler.rs`:
`ResamplingFilter::new(box_weight, 2f32)`. -/
def box_filter : ResamplingFilter :=
  { kernel := box_weight
    window := none
    min_kernel_size := 2
    is_resizable_kernel := true
    is_area_filter := false }

/-- Registry entry for `ResamplingFunction::Area` from `sampler.rs`:
`ResamplingFilter::new_area(box_weight, 2f32)`. -/
def area_filter : ResamplingFilter :=
  { kernel := box_weight
    window := none
    min_kernel_size := 2
    is_resizable_kernel := true
    is_area_filter := true }

/-- Registry entry for `ResamplingFunction::Ginseng` from `sampler.rs`:
`ResamplingFilter::new_with_window(sinc, ResamplingWindow::new(T::jinc(),
3f32, 1f32, 0f32), 3f32)`. -/
def ginseng_filter : ResamplingFilter :=
  { kernel := sinc
    window := some { window := jinc, window_size := 3, blur := 1, taper := 0 }
    min_kernel_size := 3
    is_resizable_kernel := true
    is_area_filter := false }

/-- `scale = in_size / out_size` computed at the top of `generate_weights`
(`compute_weights.rs` line 66); `ℚ` division by zero is `0`, a divergence from
the `f32` infinity that only matters for `out_size = 0`, where both branches
produce an empty plan. -/
def gw_scale (in_size out_size : ℕ) : ℚ := (in_size : ℚ) / (out_size : ℚ)

/-- `filter_scale_cutoff` from `compute_weights.rs` lines 68-71. -/
def gw_cutoff (filter : ResamplingFilter) (in_size out_size : ℕ) : ℚ :=
  if filter.is_resizable_kernel then max (gw_scale in_size out_size) 1 else 1

/-- `base_size`/`kernel_size` of the non-area path (`compute_weights.rs`
line 81): `(min_kernel_size * 2 * cutoff).round() as usize`. -/
def gw_kernel_size (filter : ResamplingFilter) (in_size out_size : ℕ) : ℕ :=
  ((qround (filter.min_kernel_size * 2 * gw_cutoff filter in_size out_size)).toNat)

/-- `filter_radius = base_size / 2` (`compute_weights.rs` line 83). -/
def gw_radius (filter : ResamplingFilter) (in_size out_size : ℕ) : ℚ :=
  (gw_kernel_size filter in_size out_size : ℚ) / 2

/-- `center_x` of output index `i` (`compute_weights.rs` line 100). -/
def gw_center_x (in_size out_size i : ℕ) : ℚ :=
  min (((i : ℚ) + 1 / 2) * gw_scale in_size out_size) (in_size : ℚ)

/-- `start` of output index `i` (`compute_weights.rs` line 103):
`(center_x - filter_radius).floor().max(0.) as usize`. -/
def gw_start (filter : ResamplingFilter) (in_size out_size i : ℕ) : ℕ :=
  (⌊gw_center_x in_size out_size i - gw_radius filter in_size out_size⌋).toNat

/-- `end` of output index `i` (`compute_weights.rs` lines 104-108):
`(center_x + filter_radius).ceil().min(in_size).min(start + kernel_size)`. -/
def gw_end (filter : ResamplingFilter) (in_size out_size i : ℕ) : ℕ :=
  min
    (min ((⌈gw_center_x in_size out_size i + gw_radius filter in_size out_size⌉).toNat)
      in_size)
    (gw_start filter in_size out_size i + gw_kernel_size filter in_size out_size)

/-- One raw (pre-normalization) kernel evaluation at input sample `k` for
output index `i` (`compute_weights.rs` lines 112-142), including the optional
window with blur and taper folding. -/
def gw_weight (filter : ResamplingFilter) (in_size out_size i k : ℕ) : ℚ :=
  let center := gw_center_x in_size out_size i - 1 / 2
  let dx := (k : ℚ) - center
  let filter_scale := 1 / gw_cutoff filter in_size out_size
  match filter.window with
  | none => filter.kernel (|dx| * filter_scale)
  | some w =>
      let blur_scale := if 0 < w.blur then 1 / w.blur else 0
      let x0 := |dx|
      let x1 := if 0 < w.blur then x0 * blur_scale else x0
      let x2 := if x1 ≤ w.taper then 0 else (x1 - w.taper) / (1 - w.taper)
      let x_kernel_scaled := x2 * filter_scale
      let win := if x2 < w.window_size then w.window (x_kernel_scaled * w.window_size) else 0
      win * filter.kernel x_kernel_scaled

/-- The raw weights `local_filters[0..size]` of output index `i` on the
non-area path. -/
def gw_locals (filter : ResamplingFilter) (in_size out_size i : ℕ) : List ℚ :=
  (List.range (gw_end filter in_size out_size i - gw_start filter in_size out_size i)).map
    (fun t => gw_weight filter in_size out_size i (gw_start filter in_size out_size i + t))

/-- `weights_sum` of output index `i` on the non-area path. -/
def gw_raw_sum (filter : ResamplingFilter) (in_size out_size i : ℕ) : ℚ :=
  (gw_locals filter in_size out_size i).sum

/-- The stored weight row of output index `i` on the non-area path
(`compute_weights.rs` lines 148-159): when the raw sum is nonzero the first
`size` lanes receive `local * (1 / sum)` and the remaining lanes keep their
zero initialization; when the raw sum is zero nothing is written and the
whole row keeps its zero initialization. -/
def gw_row (filter : ResamplingFilter) (in_size out_size i : ℕ) : List ℚ :=
  if gw_raw_sum filter in_size out_size i ≠ 0 then
    (gw_locals filter in_size out_size i).map
        (fun w => w * (1 / gw_raw_sum filter in_size out_size i)) ++
      List.replicate
        (gw_kernel_size filter in_size out_size -
          (gw_end filter in_size out_size i - gw_start filter in_size out_size i)) 0
  else
    List.replicate (gw_kernel_size filter in_size out_size) 0

/-- `sx = (i * scale).floor()` of the area path (`compute_weights.rs`
line 186), kept as an integer. -/
def area_sx (in_size out_size i : ℕ) : ℤ := ⌊(i : ℚ) * gw_scale in_size out_size⌋

/-- `fx = (i + 1) - (sx + 1) * inv_scale` of the area path
(`compute_weights.rs` line 187). -/
def area_fx (in_size out_size i : ℕ) : ℚ :=
  ((i : ℚ) + 1) - ((area_sx in_size out_size i : ℚ) + 1) * (1 / gw_scale in_size out_size)

/-- `dx` of the area path (`compute_weights.rs` lines 188-193). -/
def area_dx (in_size out_size i : ℕ) : ℚ :=
  |if area_fx in_size out_size i ≤ 0 then 0
    else area_fx in_size out_size i - ⌊area_fx in_size out_size i⌋|

/-- `start` of the area path (`compute_weights.rs` line 199). -/
def area_start (in_size out_size i : ℕ) : ℕ := (area_sx in_size out_size i).toNat

/-- `end` of the area path (`compute_weights.rs` lines 200-204), with the
fixed `kernel_size = 2`. -/
def area_end (in_size out_size i : ℕ) : ℕ :=
  min (min ((⌈(area_sx in_size out_size i : ℚ) + 2⌉).toNat) in_size)
    (area_start in_size out_size i + 2)

/-- `size = end - start` of the area path. -/
def area_size (in_size out_size i : ℕ) : ℕ :=
  area_end in_size out_size i - area_start in_size out_size i

/-- `weights_sum` of the area path (`compute_weights.rs` lines 208-211):
`weight0`, plus `weight1` only when the clamped support has two taps. -/
def area_raw_sum (in_size out_size i : ℕ) : ℚ :=
  (1 - area_dx in_size out_size i) +
    (if 1 < area_size in_size out_size i then area_dx in_size out_size i else 0)

/-- The stored weight row of output index `i` on the area path
(`compute_weights.rs` lines 214-227): normalized `(1 - dx, dx)` over the
clamped support, or a single `1` at the start lane when the sum is zero. -/
def area_row (in_size out_size i : ℕ) : List ℚ :=
  if area_raw_sum in_size out_size i ≠ 0 then
    (([1 - area_dx in_size out_size i, area_dx in_size out_size i].take
          (area_size in_size out_size i)).map
        (fun w => w * (1 / area_raw_sum in_size out_size i))) ++
      List.replicate (2 - area_size in_size out_size i) 0
  else
    [1, 0]

/-- Concatenation of per-index rows, the flat row-major weight buffer. -/
def flat_rows {α : Type} (f : ℕ → List α) : List ℕ → List α
  | [] => []
  | x :: xs => f x ++ flat_rows f xs

/-- `generate_weights` from `compute_weights.rs`.  The source takes the
`ResamplingFunction` and immediately resolves it to its `ResamplingFilter`
registry record (line 65); because several registry kernels are transcendental
and hence not exactly representable over `ℚ`, the model takes the resolved
record as the argument.  The imperative weight buffer (zero-initialized, each
output filling the `kernel_size`-aligned segment at `filter_position =
i * kernel_size`) is modelled by concatenating the per-output rows, which
touch exactly those disjoint segments. -/
def generate_weights (filter : ResamplingFilter) (in_size out_size : ℕ) :
    FilterWeights ℚ :=
  if filter.is_area_filter ∧ gw_scale in_size out_size < 1 then
    { weights := flat_rows (area_row in_size out_size) (List.range out_size)
      kernel_size := 2
      aligned_size := 2
      out_size := out_size
      filter_radius := 1
      bounds := (List.range out_size).map
        (fun i => ⟨area_start in_size out_size i, area_size in_size out_size i⟩) }
  else
    { weights := flat_rows (gw_row filter in_size out_size) (List.range out_size)
      kernel_size := gw_kernel_size filter in_size out_size
      aligned_size := gw_kernel_size filter in_size out_size
      out_size := out_size
      filter_radius := gw_radius filter in_size out_size
      bounds := (List.range out_size).map
        (fun i => ⟨gw_start filter in_size out_size i,
          gw_end filter in_size out_size i - gw_start filter in_size out_size i⟩) }

/-- Modelled from the spec: `FilterWeights::numerical_approximation_i16` of
the missing `filter_weights.rs` (spec section 3, "Quantized plan":
`q[i,k] = round(weights[i,k] * 2^P)` with `P = 15`; the spec asserts the
results fit in `i16`). -/
def numerical_approximation_i16 (fw : FilterWeights ℚ) : FilterWeights ℤ :=
  { weights := fw.weights.map (fun w => qround (w * 2 ^ PRECISION))
    kernel_size := fw.kernel_size
    aligned_size := fw.aligned_size
    out_size := fw.out_size
    filter_radius := fw.filter_radius
    bounds := fw.bounds }

/-- `resize_nearest` from `resize_nearest.rs`: coordinate-mapping copy.  The
destination is produced row by row; each destination pixel copies the channel
group at the clamped source coordinates. -/
def resize_nearest {α : Type} (C : ℕ) (z : α) (src : List α)
    (src_width src_height dst_width dst_height : ℕ) : List α :=
  flat_rows
    (fun y =>
      flat_rows
        (fun x =>
          let src_x := f32_to_usize
            (max (min (((x : ℚ) + 1 / 2) * ((src_width : ℚ) / (dst_width : ℚ)) - 1 / 2)
              ((src_width : ℚ) - 1)) 0)
          let src_y := f32_to_usize
            (max (min (((y : ℚ) + 1 / 2) * ((src_height : ℚ) / (dst_height : ℚ)) - 1 / 2)
              ((src_height : ℚ) - 1)) 0)
          (List.range C).map (fun c => src.getD (src_y * (src_width * C) + src_x * C + c) z))
        (List.range dst_width))
    (List.range dst_height)

/-- `SaturateNarrow<u8> for i32` (and `i64`) from `saturate_narrow.rs`:
`(self >> PRECISION).max(0).min(255)`, the `bit_depth` argument ignored. -/
def saturate_narrow_u8 (x : ℤ) (_ : ℕ) : ℤ :=
  min (max (asr x PRECISION) 0) 255

/-- `SaturateNarrow<u16> for i32` (and `i64`) from `saturate_narrow.rs`:
`(self >> PRECISION).max(0).min((1 << bit_depth) - 1)`. -/
def saturate_narrow_u16 (x : ℤ) (bit_depth : ℕ) : ℤ :=
  min (max (asr x PRECISION) 0) (2 ^ bit_depth - 1)

/-- `MixedStorage<u8> for f32` from `mixed_storage.rs`:
`self.cpu_round().max(0.).min(255.)`, the `bit_depth` argument ignored. -/
def to_mixed_u8 (x : ℚ) (_ : ℕ) : ℤ :=
  min (max (qround x) 0) 255

/-- `MixedStorage<u16> for f32` from `mixed_storage.rs`:
`self.cpu_round().max(0.).min((1 << bit_depth) - 1)`. -/
def to_mixed_u16 (x : ℚ) (bit_depth : ℕ) : ℤ :=
  min (max (qround x) 0) (2 ^ bit_depth - 1)

/-- The fixed-point row engine: `convolve_row_fixed_point` from
`fixed_point_dispatch.rs` together with `convolve_row_handler_fixed_point`
from `fixed_point_horizontal.rs`.  Each output pixel accumulates
`ROUNDING_CONST + Σ_k q[i,k] * src[y, (start+k)*C + c]` over the clamped
support and narrows with the saturating narrow.  The four-row tile variant
`convolve_row_handler_fixed_point_4` performs the identical per-row
accumulation for four rows at once, so the model processes rows uniformly.
`narrow` abstracts the `SaturateNarrow` impl of the sample type. -/
def convolve_row_fixed_point (narrow : ℤ → ℕ → ℤ) (C : ℕ) (src : List ℤ)
    (src_width : ℕ) (fw : FilterWeights ℤ) (dst_width dst_height bit_depth : ℕ) :
    List ℤ :=
  flat_rows
    (fun y =>
      flat_rows
        (fun i =>
          let b := fw.bounds.getD i ⟨0, 0⟩
          let wrow := plan_row fw i
          let taps := min b.size wrow.length
          (List.range C).map
            (fun c =>
              narrow
                (ROUNDING_CONST +
                  ((List.range taps).map
                    (fun k =>
                      wrow.getD k 0 *
                        src.getD (y * (src_width * C) + (b.start + k) * C + c) 0)).sum)
                bit_depth))
        (List.range dst_width))
    (List.range dst_height)

/-- The fixed-point column engine: `convolve_column_fixed_point` from
`fixed_point_dispatch.rs` with the per-pixel accumulation of
`convolve_column_handler_fixed_point` from `fixed_point_vertical.rs`
(destination row `j` reads source rows `start..start+size` at the same
column).  The source splits the row into 64/32/16/8-wide direct-buffer tiles
and 4/6-pixel groups for cache reuse; no claim in this file depends on the
per-pixel values of the vertical pass (only on its output length), so the
model uses the single-pixel handler's accumulation uniformly. -/
def convolve_column_fixed_point (narrow : ℤ → ℕ → ℤ) (C : ℕ) (src : List ℤ)
    (src_width : ℕ) (fw : FilterWeights ℤ) (dst_width dst_height bit_depth : ℕ) :
    List ℤ :=
  flat_rows
    (fun j =>
      let b := fw.bounds.getD j ⟨0, 0⟩
      let wrow := plan_row fw j
      let taps := min b.size wrow.length
      flat_rows
        (fun x =>
          (List.range C).map
            (fun c =>
              narrow
                (ROUNDING_CONST +
                  ((List.range taps).map
                    (fun k =>
                      wrow.getD k 0 *
                        src.getD ((b.start + k) * (src_width * C) + x * C + c) 0)).sum)
                bit_depth))
        (List.range dst_width))
    (List.range dst_height)

/-- The floating row engine: `convolve_row_floating_point` from
`floating_point_dispatch.rs` with `convolve_row_handler_floating_point` from
`floating_point_horizontal.rs`.  Accumulators start at zero and the result is
lowered through the `MixedStorage` narrowing.  Fused multiply-add and the
four-row tile variant compute the same exact rational sum.  `cast` is the
sample-to-accumulator conversion, `to_mixed` the `MixedStorage` impl and `z`
the sample default. -/
def convolve_row_floating_point {α : Type} (cast : α → ℚ) (to_mixed : ℚ → ℕ → α)
    (z : α) (C : ℕ) (src : List α) (src_width : ℕ) (fw : FilterWeights ℚ)
    (dst_width dst_height bit_depth : ℕ) : List α :=
  flat_rows
    (fun y =>
      flat_rows
        (fun i =>
          let b := fw.bounds.getD i ⟨0, 0⟩
          let wrow := plan_row fw i
          let taps := min b.size wrow.length
          (List.range C).map
            (fun c =>
              to_mixed
                (((List.range taps).map
                  (fun k =>
                    wrow.getD k 0 *
                      cast (src.getD (y * (src_width * C) + (b.start + k) * C + c) z))).sum)
                bit_depth))
        (List.range dst_width))
    (List.range dst_height)

/-- The floating column engine: `convolve_column_floating_point` from
`floating_point_dispatch.rs` with the per-pixel accumulation of
`convolve_column_handler_floating_point` from `floating_point_vertical.rs`
(the 4-pixel tile performs the identical per-pixel accumulation). -/
def convolve_column_floating_point {α : Type} (cast : α → ℚ) (to_mixed : ℚ → ℕ → α)
    (z : α) (C : ℕ) (src : List α) (src_width : ℕ) (fw : FilterWeights ℚ)
    (dst_width dst_height bit_depth : ℕ) : List α :=
  flat_rows
    (fun j =>
      let b := fw.bounds.getD j ⟨0, 0⟩
      let wrow := plan_row fw j
      let taps := min b.size wrow.length
      flat_rows
        (fun x =>
          (List.range C).map
            (fun c =>
              to_mixed
                (((List.range taps).map
                  (fun k =>
                    wrow.getD k 0 *
                      cast (src.getD ((b.start + k) * (src_width * C) + x * C + c) z))).sum)
                bit_depth))
        (List.range dst_width))
    (List.range dst_height)

/-- Result of a public resize call: `Ok(Vec<T>)`, `Err(String)` (message text
elided; no claim inspects it), or a Rust panic raised by one of the
`assert!`/`assert_ne!` guards. -/
inductive ResizeResult (α : Type) where
  | panicked
  | error
  | ok (out : List α)
deriving DecidableEq, Repr

/-- `resize_fixed_point` from `resize_fixed_point.rs`.  The source resolves
the filter record from `resampling_function` inside `generate_weights`; the
model receives the resolved record `filter` alongside the enumeration value
`fn` (used for the `Nearest` test).  The final
`assert_eq!(transient.len(), ...)` is not modelled as a guard; theorem
`c3_resize_output_length` below proves the asserted equality always holds on
the `ok` paths. -/
def resize_fixed_point (narrow : ℤ → ℕ → ℤ) (C : ℕ) (src : List ℤ)
    (source_size destination_size : ImageSize) (bit_depth : ℕ)
    (fn : ResamplingFunction) (filter : ResamplingFilter) : ResizeResult ℤ :=
  if 4 < C then ResizeResult.panicked
  else if C = 0 then ResizeResult.panicked
  else if src.length ≠ usize_mul (usize_mul source_size.width C) source_size.height then
    ResizeResult.error
  else if usize_bound ≤ source_size.width * C then ResizeResult.error
  else if usize_bound ≤ destination_size.width * C then ResizeResult.error
  else if source_size.width = destination_size.width ∧
      source_size.height = destination_size.height then
    ResizeResult.ok src
  else if fn = ResamplingFunction.Nearest then
    ResizeResult.ok
      (resize_nearest C (0 : ℤ) src source_size.width source_size.height
        destination_size.width destination_size.height)
  else
    let p : List ℤ × ℕ × ℕ :=
      if source_size.height ≠ destination_size.height then
        (convolve_column_fixed_point narrow C src source_size.width
          (numerical_approximation_i16
            (generate_weights filter source_size.height destination_size.height))
          source_size.width destination_size.height bit_depth,
          source_size.width, destination_size.height)
      else (src, source_size.width, source_size.height)
    if p.2.1 ≠ destination_size.width then
      ResizeResult.ok
        (convolve_row_fixed_point narrow C p.1 p.2.1
          (numerical_approximation_i16
            (generate_weights filter p.2.1 destination_size.width))
          destination_size.width p.2.2 bit_depth)
    else ResizeResult.ok p.1

/-- `resize_floating_point` from `resize_floating_point.rs`, generic over the
sample type (`cast`, `to_mixed`, `z` abstract the `AsPrimitive`,
`MixedStorage` and `Default` bounds of `T`).  Validation, the equal-size fast
path, the `Nearest` branch and the two-pass driver mirror the fixed-point
entry point; the convolution engines use floating (here exact rational)
accumulation without quantization. -/
def resize_floating_point {α : Type} (cast : α → ℚ) (to_mixed : ℚ → ℕ → α)
    (z : α) (C : ℕ) (src : List α) (source_size destination_size : ImageSize)
    (bit_depth : ℕ) (fn : ResamplingFunction) (filter : ResamplingFilter) :
    ResizeResult α :=
  if 4 < C then ResizeResult.panicked
  else if C = 0 then ResizeResult.panicked
  else if src.length ≠ usize_mul (usize_mul source_size.width C) source_size.height then
    ResizeResult.error
  else if usize_bound ≤ source_size.width * C then ResizeResult.error
  else if usize_bound ≤ destination_size.width * C then ResizeResult.error
  else if source_size.width = destination_size.width ∧
      source_size.height = destination_size.height then
    ResizeResult.ok src
  else if fn = ResamplingFunction.Nearest then
    ResizeResult.ok
      (resize_nearest C z src source_size.width source_size.height
        destination_size.width destination_size.height)
  else
    let p : List α × ℕ × ℕ :=
      if source_size.height ≠ destination_size.height then
        (convolve_column_floating_point cast to_mixed z C src source_size.width
          (generate_weights filter source_size.height destination_size.height)
          source_size.width destination_size.height bit_depth,
          source_size.width, destination_size.height)
      else (src, source_size.width, source_size.height)
    if p.2.1 ≠ destination_size.width then
      ResizeResult.ok
        (convolve_row_floating_point cast to_mixed z C p.1 p.2.1
          (generate_weights filter p.2.1 destination_size.width)
          destination_size.width p.2.2 bit_depth)
    else ResizeResult.ok p.1

/-- `resize_rgba16` from `resizer.rs`: rejects `bit_depth > 16`, then calls
`resize_floating_point::<u16, f32, f32, 4>`. -/
def resize_rgba16 (src : List ℤ) (source_size destination_size : ImageSize)
    (bit_depth : ℕ) (fn : ResamplingFunction) (filter : ResamplingFilter) :
    ResizeResult ℤ :=
  if 16 < bit_depth then ResizeResult.error
  else
    resize_floating_point (fun v => (v : ℚ)) to_mixed_u16 0 4 src source_size
      destination_size bit_depth fn filter

/-- `resize_rgb16` from `resizer.rs`: rejects `bit_depth > 16`, then calls
`resize_floating_point::<u16, f32, f32, 3>`. -/
def resize_rgb16 (src : List ℤ) (source_size destination_size : ImageSize)
    (bit_depth : ℕ) (fn : ResamplingFunction) (filter : ResamplingFilter) :
    ResizeResult ℤ :=
  if 16 < bit_depth then ResizeResult.error
  else
    resize_floating_point (fun v => (v : ℚ)) to_mixed_u16 0 3 src source_size
      destination_size bit_depth fn filter

/-- `resize_plane16` from `resizer.rs`: rejects `bit_depth > 16`, then calls
`resize_floating_point::<u16, f32, f32, 1>`. -/
def resize_plane16 (src : List ℤ) (source_size destination_size : ImageSize)
    (bit_depth : ℕ) (fn : ResamplingFunction) (filter : ResamplingFilter) :
    ResizeResult ℤ :=
  if 16 < bit_depth then ResizeResult.error
  else
    resize_floating_point (fun v => (v : ℚ)) to_mixed_u16 0 1 src source_size
      destination_size bit_depth fn filter

theorem mem_flat_rows {α : Type} (f : ℕ → List α) (a : α) :
    ∀ l : List ℕ, a ∈ flat_rows f l ↔ ∃ x ∈ l, a ∈ f x := by
  intro l
  induction l with
  | nil => simp [flat_rows]
  | cons x xs ih => simp [flat_rows, ih, List.mem_append]

theorem flat_rows_extract {α : Type} (f : ℕ → List α) (K : ℕ) :
    ∀ (l : List ℕ) (i : ℕ), (∀ a ∈ l, (f a).length = K) → i < l.length →
      ((flat_rows f l).drop (i * K)).take K = f (l.getD i 0) := by
  intro l
  induction l with
  | nil => intro i _ hi; simp at hi
  | cons x xs ih =>
    intro i h hi
    cases i with
    | zero =>
      simp only [Nat.zero_mul, List.drop_zero, flat_rows, List.getD_cons_zero]
      rw [← h x (by simp), List.take_left]
    | succ i =>
      have hx : (f x).length = K := h x (by simp)
      simp only [flat_rows, List.getD_cons_succ]
      rw [Nat.succ_mul, Nat.add_comm, ← List.drop_drop, List.drop_left' hx]
      exact ih i (fun a ha => h a (by simp [ha])) (by simpa using hi)

theorem gw_size_le_kernel_size (filter : ResamplingFilter) (in_size out_size i : ℕ) :
    gw_end filter in_size out_size i - gw_start filter in_size out_size i ≤
      gw_kernel_size filter in_size out_size := by
  have h : gw_end filter in_size out_size i ≤
      gw_start filter in_size out_size i + gw_kernel_size filter in_size out_size :=
    min_le_right _ _
  omega

theorem gw_locals_length (filter : ResamplingFilter) (in_size out_size i : ℕ) :
    (gw_locals filter in_size out_size i).length =
      gw_end filter in_size out_size i - gw_start filter in_size out_size i := by
  simp [gw_locals]

theorem gw_row_length (filter : ResamplingFilter) (in_size out_size i : ℕ) :
    (gw_row filter in_size out_size i).length = gw_kernel_size filter in_size out_size := by
  have hle := gw_size_le_kernel_size filter in_size out_size i
  unfold gw_row
  split
  · simp only [List.length_append, List.length_map, List.length_replicate, gw_locals_length]
    omega
  · simp

theorem area_size_le_two (in_size out_size i : ℕ) : area_size in_size out_size i ≤ 2 := by
  have h : area_end in_size out_size i ≤ area_start in_size out_size i + 2 := min_le_right _ _
  unfold area_size
  omega

theorem area_row_length (in_size out_size i : ℕ) :
    (area_row in_size out_size i).length = 2 := by
  have hle := area_size_le_two in_size out_size i
  unfold area_row
  split
  · simp only [List.length_append, List.length_map, List.length_take, List.length_replicate,
      List.length_cons, List.length_nil]
    omega
  · simp

theorem generate_weights_aligned_size (filter : ResamplingFilter) (in_size out_size : ℕ) :
    (generate_weights filter in_size out_size).aligned_size =
      (generate_weights filter in_size out_size).kernel_size := by
  unfold generate_weights
  split <;> simp

theorem generate_weights_row_non_area (filter : ResamplingFilter) (in_size out_size i : ℕ)
    (harea : ¬(filter.is_area_filter ∧ gw_scale in_size out_size < 1)) (hi : i < out_size) :
    plan_row (generate_weights filter in_size out_size) i = gw_row filter in_size out_size i := by
  unfold generate_weights plan_row
  rw [if_neg harea]
  simp only
  rw [flat_rows_extract (gw_row filter in_size out_size)
      (gw_kernel_size filter in_size out_size) (List.range out_size) i
      (fun a _ => gw_row_length filter in_size out_size a) (by simpa using hi)]
  rw [List.getD_eq_getElem _ _ (by simpa using hi)]
  simp

theorem generate_weights_row_area (filter : ResamplingFilter) (in_size out_size i : ℕ)
    (harea : filter.is_area_filter ∧ gw_scale in_size out_size < 1) (hi : i < out_size) :
    plan_row (generate_weights filter in_size out_size) i = area_row in_size out_size i := by
  unfold generate_weights plan_row
  rw [if_pos harea]
  simp only
  rw [flat_rows_extract (area_row in_size out_size) 2 (List.range out_size) i
      (fun a _ => area_row_length in_size out_size a) (by simpa using hi)]
  rw [List.getD_eq_getElem _ _ (by simpa using hi)]
  simp

theorem sum_map_mul_right (l : List ℚ) (r : ℚ) :
    (l.map (fun w => w * r)).sum = l.sum * r := by
  induction l with
  | nil => simp
  | cons x xs ih => simp [ih, add_mul]

theorem gw_row_sum_of_raw_sum_ne_zero (filter : ResamplingFilter) (in_size out_size i : ℕ)
    (hs : gw_raw_sum filter in_size out_size i ≠ 0) :
    (gw_row filter in_size out_size i).sum = 1 := by
  unfold gw_row
  rw [if_pos hs]
  rw [List.sum_append, sum_map_mul_right, List.sum_replicate, smul_zero, add_zero]
  rw [show (gw_locals filter in_size out_size i).sum = gw_raw_sum filter in_size out_size i
      from rfl]
  field_simp

theorem gw_row_of_raw_sum_zero (filter : ResamplingFilter) (in_size out_size i : ℕ)
    (hs : gw_raw_sum filter in_size out_size i = 0) :
    gw_row filter in_size out_size i =
      List.replicate (gw_kernel_size filter in_size out_size) 0 := by
  unfold gw_row
  rw [if_neg (by simpa using hs)]

set_option maxHeartbeats 1000000 in
/-- C2: when the source and destination sizes are equal, both entry points
return `Ok` with the input buffer, for every kernel (the equal-size fast path
precedes the `Nearest` branch and all weight generation).  The hypotheses are
the call being well-formed: a valid channel count, a buffer of matching
length, and the spec section 3 `ImageSize` invariant keeping the stride
products below the platform word. -/
theorem c2_identity_resize :
    (∀ (narrow : ℤ → ℕ → ℤ) (C : ℕ) (src : List ℤ) (ss ds : ImageSize) (bd : ℕ)
        (fn : ResamplingFunction) (filter : ResamplingFilter),
        1 ≤ C → C ≤ 4 →
        src.length = ss.width * C * ss.height →
        ss.width * C < usize_bound →
        ss.width * C * ss.height < usize_bound →
        ss = ds →
        resize_fixed_point narrow C src ss ds bd fn filter = ResizeResult.ok src) ∧
    (∀ (α : Type) (cast : α → ℚ) (to_mixed : ℚ → ℕ → α) (z : α) (C : ℕ) (src : List α)
        (ss ds : ImageSize) (bd : ℕ) (fn : ResamplingFunction) (filter : ResamplingFilter),
        1 ≤ C → C ≤ 4 →
        src.length = ss.width * C * ss.height →
        ss.width * C < usize_bound →
        ss.width * C * ss.height < usize_bound →
        ss = ds →
        resize_floating_point cast to_mixed z C src ss ds bd fn filter =
          ResizeResult.ok src) := by
  constructor
  · intro narrow C src ss ds bd fn filter hC1 hC4 hlen hwc hwch heq
    subst heq
    unfold resize_fixed_point
    rw [if_neg (by omega), if_neg (by omega),
      if_neg (by
        rw [usize_mul, usize_mul, Nat.mod_eq_of_lt hwc, Nat.mod_eq_of_lt hwch]
        exact not_not.mpr hlen),
      if_neg (by omega), if_neg (by omega), if_pos ⟨rfl, rfl⟩]
  · intro α cast to_mixed z C src ss ds bd fn filter hC1 hC4 hlen hwc hwch heq
    subst heq
    unfold resize_floating_point
    rw [if_neg (by omega), if_neg (by omega),
      if_neg (by
        rw [usize_mul, usize_mul, Nat.mod_eq_of_lt hwc, Nat.mod_eq_of_lt hwch]
        exact not_not.mpr hlen),
      if_neg (by omega), if_neg (by omega), if_pos ⟨rfl, rfl⟩]

/-- Witness for `c2_identity_resize`: the 1x1 identity resize of `[7]` under
the `Area` kernel on the fixed-point path and the `Nearest` kernel on the
floating path. -/
theorem c2_identity_resize_witness :
    resize_fixed_point saturate_narrow_u8 1 [7] ⟨1, 1⟩ ⟨1, 1⟩ 8
        ResamplingFunction.Area area_filter = ResizeResult.ok [7] ∧
    resize_floating_point (fun v : ℤ => (v : ℚ)) to_mixed_u8 (0 : ℤ) 1 [7] ⟨1, 1⟩ ⟨1, 1⟩ 8
        ResamplingFunction.Nearest box_filter = ResizeResult.ok [7] :=
  ⟨c2_identity_resize.1 saturate_narrow_u8 1 [7] ⟨1, 1⟩ ⟨1, 1⟩ 8
      ResamplingFunction.Area area_filter (by norm_num) (by norm_num) (by norm_num)
      (by norm_num [usize_bound]) (by norm_num [usize_bound]) rfl,
    c2_identity_resize.2 ℤ (fun v : ℤ => (v : ℚ)) to_mixed_u8 (0 : ℤ) 1 [7] ⟨1, 1⟩ ⟨1, 1⟩ 8
      ResamplingFunction.Nearest box_filter (by norm_num) (by norm_num) (by norm_num)
      (by norm_num [usize_bound]) (by norm_num [usize_bound]) rfl⟩

/-- C4 counterexample: a call with channel count `5` (outside `{1,2,3,4}`)
does not return a structured `Err` value — the `assert!` guard at the top of
both entry points raises a panic instead. -/
theorem c4_counterexample :
    resize_fixed_point saturate_narrow_u8 5 (List.replicate 5 (0 : ℤ)) ⟨1, 1⟩ ⟨1, 1⟩ 8
        ResamplingFunction.Box box_filter = ResizeResult.panicked ∧
    resize_fixed_point saturate_narrow_u8 5 (List.replicate 5 (0 : ℤ)) ⟨1, 1⟩ ⟨1, 1⟩ 8
        ResamplingFunction.Box box_filter ≠ ResizeResult.error ∧
    resize_floating_point (fun v : ℤ => (v : ℚ)) to_mixed_u8 (0 : ℤ) 5
        (List.replicate 5 (0 : ℤ)) ⟨1, 1⟩ ⟨1, 1⟩ 8 ResamplingFunction.Box box_filter =
      ResizeResult.panicked := by
  refine ⟨by with_unfolding_all rfl, ?_, by with_unfolding_all rfl⟩
  have h : resize_fixed_point saturate_narrow_u8 5 (List.replicate 5 (0 : ℤ)) ⟨1, 1⟩ ⟨1, 1⟩ 8
      ResamplingFunction.Box box_filter = ResizeResult.panicked := by with_unfolding_all rfl
  rw [h]
  intro hx
  exact ResizeResult.noConfusion hx

/-- C4 amended: a channel count outside `{1,2,3,4}` makes both entry points
panic (the `assert!`/`assert_ne!` guards); with a valid channel count, a
buffer-length mismatch returns `Err`, and an overflowing `width * channels`
stride (source or destination) returns `Err`, all before any convolution
work. -/
theorem c4_amended_validation :
    (∀ (narrow : ℤ → ℕ → ℤ) (C : ℕ) (src : List ℤ) (ss ds : ImageSize) (bd : ℕ)
        (fn : ResamplingFunction) (filter : ResamplingFilter), C = 0 ∨ 4 < C →
        resize_fixed_point narrow C src ss ds bd fn filter = ResizeResult.panicked) ∧
    (∀ (narrow : ℤ → ℕ → ℤ) (C : ℕ) (src : List ℤ) (ss ds : ImageSize) (bd : ℕ)
        (fn : ResamplingFunction) (filter : ResamplingFilter), 1 ≤ C → C ≤ 4 →
        src.length ≠ usize_mul (usize_mul ss.width C) ss.height →
        resize_fixed_point narrow C src ss ds bd fn filter = ResizeResult.error) ∧
    (∀ (narrow : ℤ → ℕ → ℤ) (C : ℕ) (src : List ℤ) (ss ds : ImageSize) (bd : ℕ)
        (fn : ResamplingFunction) (filter : ResamplingFilter), 1 ≤ C → C ≤ 4 →
        src.length = usize_mul (usize_mul ss.width C) ss.height →
        usize_bound ≤ ss.width * C →
        resize_fixed_point narrow C src ss ds bd fn filter = ResizeResult.error) ∧
    (∀ (narrow : ℤ → ℕ → ℤ) (C : ℕ) (src : List ℤ) (ss ds : ImageSize) (bd : ℕ)
        (fn : ResamplingFunction) (filter : ResamplingFilter), 1 ≤ C → C ≤ 4 →
        src.length = usize_mul (usize_mul ss.width C) ss.height →
        ss.width * C < usize_bound → usize_bound ≤ ds.width * C →
        resize_fixed_point narrow C src ss ds bd fn filter = ResizeResult.error) ∧
    (∀ (α : Type) (cast : α → ℚ) (to_mixed : ℚ → ℕ → α) (z : α) (C : ℕ) (src : List α)
        (ss ds : ImageSize) (bd : ℕ) (fn : ResamplingFunction) (filter : ResamplingFilter),
        C = 0 ∨ 4 < C →
        resize_floating_point cast to_mixed z C src ss ds bd fn filter =
          ResizeResult.panicked) ∧
    (∀ (α : Type) (cast : α → ℚ) (to_mixed : ℚ → ℕ → α) (z : α) (C : ℕ) (src : List α)
        (ss ds : ImageSize) (bd : ℕ) (fn : ResamplingFunction) (filter : ResamplingFilter),
        1 ≤ C → C ≤ 4 →
        src.length ≠ usize_mul (usize_mul ss.width C) ss.height →
        resize_floating_point cast to_mixed z C src ss ds bd fn filter =
          ResizeResult.error) ∧
    (∀ (α : Type) (cast : α → ℚ) (to_mixed : ℚ → ℕ → α) (z : α) (C : ℕ) (src : List α)
        (ss ds : ImageSize) (bd : ℕ) (fn : ResamplingFunction) (filter : ResamplingFilter),
        1 ≤ C → C ≤ 4 →
        src.length = usize_mul (usize_mul ss.width C) ss.height →
        usize_bound ≤ ss.width * C →
        resize_floating_point cast to_mixed z C src ss ds bd fn filter =
          ResizeResult.error) ∧
    (∀ (α : Type) (cast : α → ℚ) (to_mixed : ℚ → ℕ → α) (z : α) (C : ℕ) (src : List α)
        (ss ds : ImageSize) (bd : ℕ) (fn : ResamplingFunction) (filter : ResamplingFilter),
        1 ≤ C → C ≤ 4 →
        src.length = usize_mul (usize_mul ss.width C) ss.height →
        ss.width * C < usize_bound → usize_bound ≤ ds.width * C →
        resize_floating_point cast to_mixed z C src ss ds bd fn filter =
          ResizeResult.error) := by
  refine ⟨?_, ?_, ?_, ?_, ?_, ?_, ?_, ?_⟩
  · intro narrow C src ss ds bd fn filter hC
    unfold resize_fixed_point
    by_cases h4 : 4 < C
    · rw [if_pos h4]
    · rw [if_neg h4, if_pos (by omega)]
  · intro narrow C src ss ds bd fn filter hC1 hC4 hne
    unfold resize_fixed_point
    rw [if_neg (by omega), if_neg (by omega), if_pos hne]
  · intro narrow C src ss ds bd fn filter hC1 hC4 hlen hov
    unfold resize_fixed_point
    rw [if_neg (by omega), if_neg (by omega), if_neg (not_not.mpr hlen), if_pos hov]
  · intro narrow C src ss ds bd fn filter hC1 hC4 hlen hwc hov
    unfold resize_fixed_point
    rw [if_neg (by omega), if_neg (by omega), if_neg (not_not.mpr hlen),
      if_neg (by omega), if_pos hov]
  · intro α cast to_mixed z C src ss ds bd fn filter hC
    unfold resize_floating_point
    by_cases h4 : 4 < C
    · rw [if_pos h4]
    · rw [if_neg h4, if_pos (by omega)]
  · intro α cast to_mixed z C src ss ds bd fn filter hC1 hC4 hne
    unfold resize_floating_point
    rw [if_neg (by omega), if_neg (by omega), if_pos hne]
  · intro α cast to_mixed z C src ss ds bd fn filter hC1 hC4 hlen hov
    unfold resize_floating_point
    rw [if_neg (by omega), if_neg (by omega), if_neg (not_not.mpr hlen), if_pos hov]
  · intro α cast to_mixed z C src ss ds bd fn filter hC1 hC4 hlen hwc hov
    unfold resize_floating_point
    rw [if_neg (by omega), if_neg (by omega), if_neg (not_not.mpr hlen),
      if_neg (by omega), if_pos hov]

/-- Witness for `c4_amended_validation`: a channel-count panic and a
length-mismatch error at concrete inputs. -/
theorem c4_amended_validation_witness :
    resize_fixed_point saturate_narrow_u8 0 ([] : List ℤ) ⟨1, 1⟩ ⟨1, 1⟩ 8
        ResamplingFunction.Box box_filter = ResizeResult.panicked ∧
    resize_fixed_point saturate_narrow_u8 1 ([5, 5] : List ℤ) ⟨1, 1⟩ ⟨1, 1⟩ 8
        ResamplingFunction.Box box_filter = ResizeResult.error :=
  ⟨c4_amended_validation.1 saturate_narrow_u8 0 [] ⟨1, 1⟩ ⟨1, 1⟩ 8
      ResamplingFunction.Box box_filter (Or.inl rfl),
    c4_amended_validation.2.1 saturate_narrow_u8 1 [5, 5] ⟨1, 1⟩ ⟨1, 1⟩ 8
      ResamplingFunction.Box box_filter (by norm_num) (by norm_num)
      (by norm_num [usize_mul, usize_bound])⟩

/-- C8 counterexample: a 16-bit entry point called with `bit_depth = 0`
(outside the range `[1, 16]`) is not rejected — the guard only tests
`bit_depth > 16`, so the call proceeds and returns `Ok`. -/
theorem c8_counterexample :
    resize_rgba16 [0, 0, 0, 0] ⟨1, 1⟩ ⟨1, 1⟩ 0 ResamplingFunction.Box box_filter =
        ResizeResult.ok [0, 0, 0, 0] ∧
    resize_rgba16 [0, 0, 0, 0] ⟨1, 1⟩ ⟨1, 1⟩ 0 ResamplingFunction.Box box_filter ≠
      ResizeResult.error := by
  have h : resize_rgba16 [0, 0, 0, 0] ⟨1, 1⟩ ⟨1, 1⟩ 0 ResamplingFunction.Box box_filter =
      ResizeResult.ok [0, 0, 0, 0] := by with_unfolding_all rfl
  exact ⟨h, by rw [h]; intro hx; exact ResizeResult.noConfusion hx⟩

/-- C8 amended: the 16-bit entry points reject `bit_depth > 16` with a
structured error before any work, but accept `bit_depth = 0` (only the upper
bound of the spec's `[1, 16]` range is enforced). -/
theorem c8_amended_bit_depth_guard :
    ∀ (src : List ℤ) (ss ds : ImageSize) (bd : ℕ) (fn : ResamplingFunction)
      (filter : ResamplingFilter), 16 < bd →
      resize_rgba16 src ss ds bd fn filter = ResizeResult.error ∧
      resize_rgb16 src ss ds bd fn filter = ResizeResult.error ∧
      resize_plane16 src ss ds bd fn filter = ResizeResult.error := by
  intro src ss ds bd fn filter hbd
  unfold resize_rgba16 resize_rgb16 resize_plane16
  rw [if_pos hbd, if_pos hbd, if_pos hbd]
  exact ⟨rfl, rfl, rfl⟩

/-- Witness for `c8_amended_bit_depth_guard` at `bit_depth = 17`. -/
theorem c8_amended_bit_depth_guard_witness :
    resize_rgba16 [0, 0, 0, 0] ⟨1, 1⟩ ⟨1, 1⟩ 17 ResamplingFunction.Box box_filter =
        ResizeResult.error ∧
    resize_rgb16 [0, 0, 0] ⟨1, 1⟩ ⟨1, 1⟩ 17 ResamplingFunction.Box box_filter =
        ResizeResult.error ∧
    resize_plane16 [0] ⟨1, 1⟩ ⟨1, 1⟩ 17 ResamplingFunction.Box box_filter =
      ResizeResult.error := by
  refine ⟨(c8_amended_bit_depth_guard [0, 0, 0, 0] ⟨1, 1⟩ ⟨1, 1⟩ 17
      ResamplingFunction.Box box_filter (by norm_num)).1,
    (c8_amended_bit_depth_guard [0, 0, 0] ⟨1, 1⟩ ⟨1, 1⟩ 17
      ResamplingFunction.Box box_filter (by norm_num)).2.1,
    (c8_amended_bit_depth_guard [0] ⟨1, 1⟩ ⟨1, 1⟩ 17
      ResamplingFunction.Box box_filter (by norm_num)).2.2⟩

/-- C9: the integer selector maps `0` to `Bilinear`, `1` to `Nearest`, `2` to
`Cubic`, and so on in the section 4.1 order up to `38` mapped to `Area`, and
every value greater than `38` falls back to `Bilinear`. -/
theorem c9_resampling_selector :
    (∀ n : ℕ, 38 < n → resampling_from_u32 n = ResamplingFunction.Bilinear) ∧
    (resampling_from_u32 0 = ResamplingFunction.Bilinear ∧
      resampling_from_u32 1 = ResamplingFunction.Nearest ∧
      resampling_from_u32 2 = ResamplingFunction.Cubic ∧
      resampling_from_u32 3 = ResamplingFunction.MitchellNetravalli ∧
      resampling_from_u32 4 = ResamplingFunction.CatmullRom ∧
      resampling_from_u32 5 = ResamplingFunction.Hermite ∧
      resampling_from_u32 6 = ResamplingFunction.BSpline ∧
      resampling_from_u32 7 = ResamplingFunction.Hann ∧
      resampling_from_u32 8 = ResamplingFunction.Bicubic ∧
      resampling_from_u32 9 = ResamplingFunction.Hamming ∧
      resampling_from_u32 10 = ResamplingFunction.Hanning ∧
      resampling_from_u32 11 = ResamplingFunction.Blackman ∧
      resampling_from_u32 12 = ResamplingFunction.Welch ∧
      resampling_from_u32 13 = ResamplingFunction.Quadric ∧
      resampling_from_u32 14 = ResamplingFunction.Gaussian ∧
      resampling_from_u32 15 = ResamplingFunction.Sphinx ∧
      resampling_from_u32 16 = ResamplingFunction.Bartlett ∧
      resampling_from_u32 17 = ResamplingFunction.Robidoux ∧
      resampling_from_u32 18 = ResamplingFunction.RobidouxSharp ∧
      resampling_from_u32 19 = ResamplingFunction.Spline16 ∧
      resampling_from_u32 20 = ResamplingFunction.Spline36 ∧
      resampling_from_u32 21 = ResamplingFunction.Spline64 ∧
      resampling_from_u32 22 = ResamplingFunction.Kaiser ∧
      resampling_from_u32 23 = ResamplingFunction.BartlettHann ∧
      resampling_from_u32 24 = ResamplingFunction.Box ∧
      resampling_from_u32 25 = ResamplingFunction.Bohman ∧
      resampling_from_u32 26 = ResamplingFunction.Lanczos2 ∧
      resampling_from_u32 27 = ResamplingFunction.Lanczos3 ∧
      resampling_from_u32 28 = ResamplingFunction.Lanczos4 ∧
      resampling_from_u32 29 = ResamplingFunction.Lanczos2Jinc ∧
      resampling_from_u32 30 = ResamplingFunction.Lanczos3Jinc ∧
      resampling_from_u32 31 = ResamplingFunction.Lanczos4Jinc ∧
      resampling_from_u32 32 = ResamplingFunction.Ginseng ∧
      resampling_from_u32 33 = ResamplingFunction.HaasnSoft ∧
      resampling_from_u32 34 = ResamplingFunction.Lagrange2 ∧
      resampling_from_u32 35 = ResamplingFunction.Lagrange3 ∧
      resampling_from_u32 36 = ResamplingFunction.Lanczos6 ∧
      resampling_from_u32 37 = ResamplingFunction.Lanczos6Jinc ∧
      resampling_from_u32 38 = ResamplingFunction.Area) := by
  constructor
  · intro n hn
    obtain ⟨m, rfl⟩ : ∃ m, n = m + 39 := ⟨n - 39, by omega⟩
    rfl
  · decide

/-- Witness for `c9_resampling_selector`: the fallback at `39`. -/
theorem c9_resampling_selector_witness :
    resampling_from_u32 39 = ResamplingFunction.Bilinear :=
  c9_resampling_selector.1 39 (by norm_num)

theorem saturate_narrow_u8_range (x : ℤ) (b : ℕ) :
    0 ≤ saturate_narrow_u8 x b ∧ saturate_narrow_u8 x b ≤ 255 := by
  unfold saturate_narrow_u8
  constructor
  · exact le_min (le_max_right _ _) (by norm_num)
  · exact min_le_right _ _

/-- C10: the `i32`-to-`u8` saturating narrow shifts right by `PRECISION`,
clamps into `[0, 255]` and ignores the `bit_depth` argument entirely;
negative accumulator sums narrow to `0`, and consequently every sample the
fixed-point row engine produces through it lies in `[0, 255]`. -/
theorem c10_saturate_narrow_u8_clamps :
    (∀ (x : ℤ) (b b' : ℕ), saturate_narrow_u8 x b = saturate_narrow_u8 x b') ∧
    (∀ (x : ℤ) (b : ℕ), 0 ≤ saturate_narrow_u8 x b ∧ saturate_narrow_u8 x b ≤ 255) ∧
    (∀ (x : ℤ) (b : ℕ), x < 0 → saturate_narrow_u8 x b = 0) ∧
    (∀ (C : ℕ) (src : List ℤ) (sw : ℕ) (fw : FilterWeights ℤ) (dw dh bd : ℕ) (v : ℤ),
        v ∈ convolve_row_fixed_point saturate_narrow_u8 C src sw fw dw dh bd →
        0 ≤ v ∧ v ≤ 255) := by
  refine ⟨fun x b b' => rfl, saturate_narrow_u8_range, ?_, ?_⟩
  · intro x b hx
    have hneg : asr x PRECISION < 0 := by
      unfold asr
      rw [Int.fdiv_eq_ediv _ (by positivity)]
      exact Int.ediv_neg' hx (by positivity)
    unfold saturate_narrow_u8
    omega
  · intro C src sw fw dw dh bd v hv
    unfold convolve_row_fixed_point at hv
    rw [mem_flat_rows] at hv
    obtain ⟨y, _, hv⟩ := hv
    rw [mem_flat_rows] at hv
    obtain ⟨i, _, hv⟩ := hv
    simp only [List.mem_map] at hv
    obtain ⟨c, _, hv⟩ := hv
    rw [← hv]
    exact saturate_narrow_u8_range _ _

/-- Witness for `c10_saturate_narrow_u8_clamps`: a negative accumulator
narrows to `0` at any bit depth, and a concrete engine output sample is in
range. -/
theorem c10_saturate_narrow_u8_clamps_witness :
    saturate_narrow_u8 (-5) 16 = 0 ∧ (0 ≤ (150 : ℤ) ∧ (150 : ℤ) ≤ 255) :=
  ⟨c10_saturate_narrow_u8_clamps.2.2.1 (-5) 16 (by norm_num),
    c10_saturate_narrow_u8_clamps.2.2.2 1 [100, 200] 2
      (numerical_approximation_i16 (generate_weights box_filter 2 4)) 4 1 8 150
      (by with_unfolding_all decide)⟩

theorem area_dx_nonneg (in_size out_size i : ℕ) : 0 ≤ area_dx in_size out_size i :=
  abs_nonneg _

theorem area_dx_lt_one (in_size out_size i : ℕ) : area_dx in_size out_size i < 1 := by
  unfold area_dx
  rcases le_or_lt (area_fx in_size out_size i) 0 with hf | hf
  · rw [if_pos hf, abs_zero]
    norm_num
  · rw [if_neg (not_le.mpr hf)]
    have h0 : (0 : ℚ) ≤ area_fx in_size out_size i - ⌊area_fx in_size out_size i⌋ := by
      have := Int.floor_le (area_fx in_size out_size i)
      linarith
    rw [abs_of_nonneg h0]
    have := Int.lt_floor_add_one (area_fx in_size out_size i)
    linarith

/-- C5 counterexample: for the Ginseng kernel with `in_size = out_size = 1`
the single raw weight of output `0` is `jinc(0) * sinc(0) = 0` (the spec pins
`jinc(0) = 0`), so the raw weight sum is exactly zero on the non-area path —
yet the plan's stored row is all zeros, not a single `1` at the start
position. -/
theorem c5_counterexample :
    gw_raw_sum ginseng_filter 1 1 0 = 0 ∧
    ginseng_filter.is_area_filter = false ∧
    plan_row (generate_weights ginseng_filter 1 1) 0 ≠ [1, 0, 0, 0, 0, 0] := by
  have heq : plan_row (generate_weights ginseng_filter 1 1) 0 = List.replicate 6 0 := by
    with_unfolding_all rfl
  refine ⟨by with_unfolding_all rfl, rfl, ?_⟩
  rw [heq]
  intro hx
  simp [List.replicate] at hx

/-- C5 amended: when an output's raw weight sum evaluates to exactly zero on
the non-area path, `generate_weights` leaves that row of the plan all zeros
(no `1` is placed); the single-`1` fallback exists only on the area path,
whose raw weight sum is in fact always positive, so it never fires. -/
theorem c5_amended_degenerate_rows :
    (∀ (filter : ResamplingFilter) (in_size out_size i : ℕ),
        filter.is_area_filter = false → i < out_size →
        gw_raw_sum filter in_size out_size i = 0 →
        plan_row (generate_weights filter in_size out_size) i =
          List.replicate (gw_kernel_size filter in_size out_size) 0) ∧
    (∀ in_size out_size i : ℕ, 0 < area_raw_sum in_size out_size i) := by
  constructor
  · intro filter in_size out_size i hA hi hs
    rw [generate_weights_row_non_area filter in_size out_size i
        (by rw [hA]; simp) hi]
    exact gw_row_of_raw_sum_zero filter in_size out_size i hs
  · intro in_size out_size i
    have h1 := area_dx_nonneg in_size out_size i
    have h2 := area_dx_lt_one in_size out_size i
    unfold area_raw_sum
    split
    · linarith
    · linarith

/-- Witness for `c5_amended_degenerate_rows`: the degenerate Ginseng row at
`(1, 1)` really is all zeros, and a concrete area-path raw sum is positive. -/
theorem c5_amended_degenerate_rows_witness :
    plan_row (generate_weights ginseng_filter 1 1) 0 =
        List.replicate (gw_kernel_size ginseng_filter 1 1) 0 ∧
    0 < area_raw_sum 2 4 0 :=
  ⟨c5_amended_degenerate_rows.1 ginseng_filter 1 1 0 rfl (by norm_num)
      (by with_unfolding_all rfl),
    c5_amended_degenerate_rows.2 2 4 0⟩

/-- C6 counterexample: for the Ginseng kernel with `in_size = out_size = 1`
(a non-area plan) the stored weights of output `0` sum to `0`, which is not
within `10⁻⁶` of `1`. -/
theorem c6_counterexample :
    ginseng_filter.is_area_filter = false ∧
    ¬|(plan_row (generate_weights ginseng_filter 1 1) 0).sum - 1| <
        1 / 1000000 := by
  have heq : plan_row (generate_weights ginseng_filter 1 1) 0 = List.replicate 6 0 := by
    with_unfolding_all rfl
  refine ⟨rfl, ?_⟩
  rw [heq]
  norm_num [List.sum_replicate]

/-- C6 amended: for every non-area kernel and every output index (within the
plan) whose raw weight sum is nonzero, the stored weights sum to exactly `1`
in the real-arithmetic idealization, in particular within `10⁻⁶` of `1`;
degenerate rows (raw sum zero) sum to `0` instead. -/
theorem c6_amended_rows_sum_to_one :
    ∀ (filter : ResamplingFilter) (in_size out_size i : ℕ),
      filter.is_area_filter = false → i < out_size →
      gw_raw_sum filter in_size out_size i ≠ 0 →
      |(plan_row (generate_weights filter in_size out_size) i).sum - 1| <
        1 / 1000000 := by
  intro filter in_size out_size i hA hi hs
  rw [generate_weights_row_non_area filter in_size out_size i (by rw [hA]; simp) hi,
    gw_row_sum_of_raw_sum_ne_zero filter in_size out_size i hs]
  norm_num

/-- Witness for `c6_amended_rows_sum_to_one`: the Box plan for `2 → 4`,
output `0` (raw weight sum `2`). -/
theorem c6_amended_rows_sum_to_one_witness :
    |(plan_row (generate_weights box_filter 2 4) 0).sum - 1| < 1 / 1000000 :=
  c6_amended_rows_sum_to_one box_filter 2 4 0 rfl (by norm_num)
    (by
      have h : gw_raw_sum box_filter 2 4 0 = 2 := by with_unfolding_all rfl
      rw [h]
      norm_num)

/-- C7 counterexample: resizing the single-channel source `[100, 200]` of
size 2x1 to 4x1 with the Box kernel does not produce `[100, 100, 200, 200]`:
the code's Box kernel is the constant-`1` weight with half-support `2`, so
every destination pixel averages the whole clamped span. -/
theorem c7_counterexample :
    resize_fixed_point saturate_narrow_u8 1 [100, 200] ⟨2, 1⟩ ⟨4, 1⟩ 8
      ResamplingFunction.Box box_filter ≠ ResizeResult.ok [100, 100, 200, 200] := by
  have h : resize_fixed_point saturate_narrow_u8 1 [100, 200] ⟨2, 1⟩ ⟨4, 1⟩ 8
      ResamplingFunction.Box box_filter = ResizeResult.ok [150, 150, 150, 150] := by
    with_unfolding_all rfl
  rw [h]
  decide

/-- C7 amended: the 2x1 source `[100, 200]` resized to 4x1 with the Box
kernel produces `[150, 150, 150, 150]` (every output is the normalized
average of both samples), on the fixed-point path and on the floating path
alike. -/
theorem c7_amended_box_upscale :
    resize_fixed_point saturate_narrow_u8 1 [100, 200] ⟨2, 1⟩ ⟨4, 1⟩ 8
        ResamplingFunction.Box box_filter = ResizeResult.ok [150, 150, 150, 150] ∧
    resize_floating_point (fun v : ℤ => (v : ℚ)) to_mixed_u8 (0 : ℤ) 1 [100, 200]
        ⟨2, 1⟩ ⟨4, 1⟩ 8 ResamplingFunction.Box box_filter =
      ResizeResult.ok [150, 150, 150, 150] :=
  ⟨by with_unfolding_all rfl, by with_unfolding_all rfl⟩
